import Mathlib

/-!
# Verification of the `wait-on` availability engine (src/lib/wait-on.ts)

Shallow embedding of the core of `wait-on`: the per-resource polling
pipelines (`createFileResource$`, `createHTTP$`, `createTCP$`,
`createSocket$`), the resource-string parsing helpers (`PREFIX_RE`,
`HOST_PORT_RE`, `HTTP_GET_RE`, `HTTP_UNIX_RE`), the option validation and
normalization in `waitOnImpl`, and the terminal-callback discipline
(`once`, `cleanup`).

Probe I/O (fs.stat, axios, net.connect) is abstracted by oracles giving
the boolean/size outcome of each probe cycle; everything downstream of
those outcomes is embedded faithfully from the source.
-/

namespace WaitOn

/-! ## RxJS list semantics for the per-resource pipeline

Every `create*$` pipeline ends with
`startWith(false), distinctUntilChanged(), take(2)` over the stream of
per-cycle booleans.  We model a (finite prefix of a) stream as the list of
values it emits, in order. -/

/-- `distinctUntilChanged` after a first emission `prev`: drop each element
equal to the previously emitted one. -/
def coalesceFrom (prev : Bool) : List Bool → List Bool
  | [] => []
  | x :: xs => if x = prev then coalesceFrom prev xs else x :: coalesceFrom x xs

/-- `distinctUntilChanged` on a whole emission list. -/
def coalesce : List Bool → List Bool
  | [] => []
  | x :: xs => x :: coalesceFrom x xs

/-- The tail of every `create*$` pipeline: prepend the startup `false`
(`startWith(false)`), coalesce duplicates (`distinctUntilChanged()`), and
complete after two emissions (`take(2)`).  Input: the per-cycle booleans
produced upstream, in arrival order. -/
def emitPipeline (cycles : List Bool) : List Bool :=
  (coalesce (false :: cycles)).take 2

/-! ## File resource pipeline (`createFileResource$`, lines 249–291)

The non-reverse branch is `scan` with accumulator either the record
`{ size, t }` or the boolean `true`; a probe yields the file size (an
integer, `-1` when `fs.stat` failed, from `getFileSize`).  `Date.now()` is
modelled by pairing each probe value with its arrival time. -/

/-- Accumulator of the `scan` in `createFileResource$`: either the record
`{ size, t }` or the boolean `true` ("file size has stabilized"). -/
inductive FileAcc where
  | run (size : Int) (t : Int)
  | done
deriving DecidableEq, Repr

/-- One step of the `scan` accumulator function (lines 258–276), at probe
value `x` arriving at time `now`, with stability window `w`.

When the accumulator is the boolean `true` (JS: `acc = true`), the
destructuring `const { size, t } = acc` yields `undefined` for both, so
`x === size` is false and the code returns `{ size: x, t: now }`; the
`.done` branch reflects that. When `x ≤ -1` the code returns `acc`
unchanged. -/
def fileScanStep (w : Int) (acc : FileAcc) (x : Int) (now : Int) : FileAcc :=
  if x > -1 then
    match acc with
    | .done => .run x now
    | .run size t =>
      if size ≠ -1 ∧ x = size then
        if now ≥ t + w then .done
        else .run size t
      else .run x now
  else acc

/-- The list of accumulator values emitted by `scan` (one per probe), with
probes given as `(size, arrivalTime)` pairs. -/
def fileScanOutputs (w : Int) (acc : FileAcc) : List (Int × Int) → List FileAcc
  | [] => []
  | p :: ps =>
    let acc' := fileScanStep w acc p.1 p.2
    acc' :: fileScanOutputs w acc' ps

/-- The final accumulator after a probe trace. -/
def fileScanFold (w : Int) (t0 : Int) (probes : List (Int × Int)) : FileAcc :=
  probes.foldl (fun acc p => fileScanStep w acc p.1 p.2) (.run (-1) t0)

/-- `map((x) => (isNotABoolean(x) ? false : x))` (line 286): the record
accumulator maps to `false`, the boolean `true` maps to itself. -/
def accToBool : FileAcc → Bool
  | .run _ _ => false
  | .done => true

/-- Emissions of `createFileResource$`: the `checkOperator` is
`map((size) => size === -1)` under reverse mode and the stability `scan`
otherwise (lines 254–278), followed by the common
`startWith/distinctUntilChanged/take(2)` tail.  `t0` is the `Date.now()`
captured when the scan seed `{ size: -1, t: Date.now() }` is built. -/
def createFileEmissions (reverse : Bool) (w t0 : Int)
    (probes : List (Int × Int)) : List Bool :=
  if reverse then
    emitPipeline (probes.map (fun p => p.1 == -1))
  else
    emitPipeline ((fileScanOutputs w (.run (-1) t0) probes).map accToBool)

/-! ## Regex embeddings

The source's regexes operate over colon-delimited payloads whose character
classes exclude `:`, so each one is equivalent to a split on `:` with
shape/charset conditions; we embed them at the character-list level. -/

/-- Split a character list on a delimiter (every piece is delimiter-free
and pieces are separated by single delimiter occurrences). -/
def splitOnChar (c : Char) : List Char → List (List Char)
  | [] => [[]]
  | x :: xs =>
    if x = c then [] :: splitOnChar c xs
    else
      match splitOnChar c xs with
      | [] => [[x]]
      | p :: ps => (x :: p) :: ps

/-- `\d+`: a nonempty digit string. -/
def isDigits (l : List Char) : Bool :=
  !l.isEmpty && l.all (fun c => c.isDigit)

/-- `HOST_PORT_RE = /^(([^:]*):)?(\d+)$/` (line 18) applied to the `tcp:`
payload, with the host defaulting of `tcpExists` (line 396):
`const host = hostMatched || 'localhost'`, i.e. a missing or empty host
becomes `localhost`.  Returns `(host, port)` on a match. -/
def matchHostPortList (l : List Char) : Option (List Char × List Char) :=
  match splitOnChar ':' l with
  | [p] => if isDigits p then some ("localhost".data, p) else none
  | [h, p] =>
    if isDigits p then some ((if h.isEmpty then "localhost".data else h), p)
    else none
  | _ => none

/-- String-level wrapper for `HOST_PORT_RE` matching plus host default. -/
def matchHostPort (s : String) : Option (String × String) :=
  (matchHostPortList s.data).map (fun p => (⟨p.1⟩, ⟨p.2⟩))

/-- `tcpExists` (lines 391–417): a payload not matching `HOST_PORT_RE`
resolves `false`; otherwise the outcome of the `net.connect` attempt
(connect → `true`, error/timeout → `false`) is abstracted by the oracle
`net host port`. -/
def tcpExists (net : String → String → Bool) (tcpPath : String) : Bool :=
  match matchHostPort tcpPath with
  | none => false
  | some (host, port) => net host port

/-- `negateAsync` (lines 449–453), on an already-resolved probe. -/
def negateAsync {α : Type} (asyncFn : α → Bool) : α → Bool :=
  fun a => !(asyncFn a)

/-- `checkFn` selection in `createTCP$` (line 379). -/
def tcpCheckFn (reverse : Bool) (net : String → String → Bool) :
    String → Bool :=
  if reverse then negateAsync (tcpExists net) else tcpExists net

/-- `checkFn` selection in `createSocket$` (line 421); `socketExists` is
abstracted by the oracle giving each connect attempt's outcome. -/
def socketCheckFn (reverse : Bool) (socketExists : String → Bool) :
    String → Bool :=
  if reverse then negateAsync socketExists else socketExists

/-- `checkFn` selection in `createHTTP$` (line 350); `httpCallSucceeds` is
abstracted by the oracle giving each request's outcome. -/
def httpCheckFn {Opts : Type} (reverse : Bool)
    (httpCallSucceeds : Opts → Bool) : Opts → Bool :=
  if reverse then negateAsync httpCallSucceeds else httpCallSucceeds

/-! ## HTTP URL handling (`createHTTP$`, lines 318–360) -/

/-- JavaScript `String.prototype.replace` with a string pattern: replace
the first (leftmost) occurrence of `pat`, if any. -/
def listReplaceFirst (pat rep : List Char) : List Char → List Char
  | [] => []
  | c :: cs =>
    if pat.isPrefixOf (c :: cs) then rep ++ (c :: cs).drop pat.length
    else c :: listReplaceFirst pat rep cs

/-- `s.replace(pat, rep)` for string `pat` (first occurrence only). -/
def jsReplace (s pat rep : String) : String :=
  ⟨listReplaceFirst pat.data rep.data s.data⟩

/-- `const url = resource.replace('-get:', ':')` (line 330). -/
def httpRequestUrl (resource : String) : String :=
  jsReplace resource "-get:" ":"

/-- `HTTP_GET_RE = /^https?-get:/` (line 19): request method selection of
line 329. -/
def httpMethod (resource : String) : String :=
  if "http-get:".data.isPrefixOf resource.data
      || "https-get:".data.isPrefixOf resource.data then "get"
  else "head"

/-- `HTTP_UNIX_RE = /^http:\/\/unix:([^:]+):([^:]+)$/` (line 20): the
remainder after the literal prefix `http://unix:` must split on `:` into
exactly two nonempty colon-free groups `(socketPath, urlPath)`. -/
def matchHttpUnixList (l : List Char) : Option (List Char × List Char) :=
  if "http://unix:".data.isPrefixOf l then
    match splitOnChar ':' (l.drop 12) with
    | [a, b] => if !a.isEmpty && !b.isEmpty then some (a, b) else none
    | _ => none
  else none

/-- String-level wrapper for `HTTP_UNIX_RE` matching (line 331). -/
def matchHttpUnix (url : String) : Option (String × String) :=
  (matchHttpUnixList url.data).map (fun p => (⟨p.1⟩, ⟨p.2⟩))

/-- `urlSocketOptions` (lines 331–334): `(socketPath?, url-or-urlPath)`
computed from the resource after the `-get:` strip. -/
def urlSocketOptions (resource : String) : Option String × String :=
  let url := httpRequestUrl resource
  match matchHttpUnix url with
  | some (sock, p) => (some sock, p)
  | none => (none, url)

/-! ## Resource prefix extraction (`PREFIX_RE`, lines 17, 293–307) -/

/-- `PREFIX_RE = /^((https?-get|https?|tcp|socket|file):)(.+)$/`:
`extractPrefix` returns group 1 (scheme with colon) or `''`. -/
def extractPrefix (resource : String) : String :=
  let tryPre (p : String) : Option String :=
    if resource.startsWith (p ++ ":") && resource.length > p.length + 1 then
      some (p ++ ":")
    else none
  ((((((tryPre "https-get").or (tryPre "http-get")).or
      (tryPre "https")).or (tryPre "http")).or
      ((tryPre "tcp").or (tryPre "socket"))).or (tryPre "file")).getD ""

/-- `extractPath`: group 3 of `PREFIX_RE`, or the whole resource. -/
def extractPath (resource : String) : String :=
  let p := extractPrefix resource
  if p = "" then resource else resource.drop p.length

/-! ## Option validation (`WAIT_ON_SCHEMA`, lines 57–84) and
normalization (`waitOnImpl`, lines 155–160)

JavaScript numeric inputs are modelled as rationals (so that
`Joi.number().integer()`'s rejection of non-integers is expressible);
`Infinity` defaults (`simultaneous`, `timeout`) are modelled by `none` in
the validated record.  Joi validates with `abortEarly`, reporting the
first failing key in schema order. -/

structure WaitOnConfig where
  resources : Option (List String)
  delay : Option Rat
  httpTimeout : Option Rat
  interval : Option Rat
  log : Option Bool
  reverse : Option Bool
  simultaneous : Option Rat
  timeout : Option Rat
  verbose : Option Bool
  window : Option Rat
  tcpTimeout : Option Rat
deriving Repr

/-- Validated options (`WaitOnSchema` with defaults applied);
`none` in `simultaneous`/`timeout` stands for `Infinity`, `none` in
`httpTimeout` for "not set". -/
structure ValidatedOpts where
  resources : List String
  delay : Nat
  httpTimeout : Option Nat
  interval : Nat
  log : Bool
  reverse : Bool
  simultaneous : Option Nat
  timeout : Option Nat
  verbose : Bool
  window : Nat
  tcpTimeout : Nat
deriving Repr, DecidableEq

/-- `Joi.number().integer().min(m)` on an optional field: absent is fine
(the default applies), present must be an integer `≥ m`. -/
def fieldOk (m : Int) (q : Option Rat) : Bool :=
  match q with
  | none => true
  | some x => x.den = 1 && (m : Rat) ≤ x

/-- Integer value of a validated present field, or the default. -/
def ratField (q : Option Rat) (dflt : Nat) : Nat :=
  match q with
  | none => dflt
  | some x => x.num.toNat

/-- Optional-integer value of a validated field whose default is
`Infinity`/unset (`none`). -/
def ratFieldOpt (q : Option Rat) : Option Nat :=
  match q with
  | none => none
  | some x => some x.num.toNat

/-- `WAIT_ON_SCHEMA.validate(opts)` (line 151): `resources` is a required
array with at least one required string item; every numeric field is
`Joi.number().integer().min(0)` (`simultaneous`: `.min(1)`); defaults
`delay 0`, `interval 250`, `window 750`, `tcpTimeout 300`,
`simultaneous Infinity`, `timeout Infinity`, booleans `false`. -/
def joiValidate (o : WaitOnConfig) : Except String ValidatedOpts :=
  match o.resources with
  | none => .error "\x22resources\x22 is required"
  | some [] => .error "\x22resources\x22 does not contain 1 required value(s)"
  | some rs =>
    if !fieldOk 0 o.delay then .error "\x22delay\x22 must be an integer of at least 0"
    else if !fieldOk 0 o.httpTimeout then .error "\x22httpTimeout\x22 must be an integer of at least 0"
    else if !fieldOk 0 o.interval then .error "\x22interval\x22 must be an integer of at least 0"
    else if !fieldOk 1 o.simultaneous then .error "\x22simultaneous\x22 must be an integer of at least 1"
    else if !fieldOk 0 o.timeout then .error "\x22timeout\x22 must be an integer of at least 0"
    else if !fieldOk 0 o.window then .error "\x22window\x22 must be an integer of at least 0"
    else if !fieldOk 0 o.tcpTimeout then .error "\x22tcpTimeout\x22 must be an integer of at least 0"
    else
      .ok
        { resources := rs
          delay := ratField o.delay 0
          httpTimeout := ratFieldOpt o.httpTimeout
          interval := ratField o.interval 250
          log := o.log.getD false
          reverse := o.reverse.getD false
          simultaneous := ratFieldOpt o.simultaneous
          timeout := ratFieldOpt o.timeout
          verbose := o.verbose.getD false
          window := ratField o.window 750
          tcpTimeout := ratField o.tcpTimeout 300 }

/-- The normalization of `waitOnImpl` (lines 155–160): spread of
`validResult.value` overridden by
`...(window < interval ? { window: interval } : {})` and
`...(verbose ? { log: true } : {})`. -/
def normalizeOpts (v : ValidatedOpts) : ValidatedOpts :=
  { v with
    window := if v.window < v.interval then v.interval else v.window
    log := if v.verbose then true else v.log }

/-! ## Orchestration (`waitOnImpl`, lines 149–212)

`cbOnce = once(cbFunc)`; the subscription calls `cleanup` on each terminal
notification (`error:`/`complete:`, lines 209–210) and `cleanup` always
ends in `cbOnce(err)` (line 192).  A run's observable behaviour is
modelled by the list of notifications the subscriber receives. -/

inductive RxNotification where
  | next (snapshot : List Bool)
  | failure (msg : String)
  | completed
deriving Repr, DecidableEq

/-- `error:` and `complete:` are the terminal notifications. -/
def isTerminalNotification : RxNotification → Bool
  | .next _ => false
  | .failure _ => true
  | .completed => true

/-- State of `cbOnce` (lodash `once`): whether the underlying callback was
already called, and how many times it has actually run. -/
def onceInvoke (st : Bool × Nat) : Bool × Nat :=
  if st.1 then st else (true, st.2 + 1)

/-- Delivery of one notification to the `waitOnImpl` subscriber: `next`
only updates `lastResourcesState`/logging; `error` and `complete` run
`cleanup`, which calls `cbOnce`. -/
def deliverNotification (st : Bool × Nat) (ev : RxNotification) : Bool × Nat :=
  if isTerminalNotification ev then onceInvoke st else st

/-- Number of times the user callback `cbFunc` actually runs in a
`waitOnImpl` invocation whose subscription delivers `tr`: a validation
error calls `cbOnce` synchronously and never subscribes (lines 152–154);
otherwise each terminal notification runs `cleanup → cbOnce`. -/
def callbackRuns (o : WaitOnConfig) (tr : List RxNotification) : Nat :=
  match joiValidate o with
  | .error _ => (onceInvoke (false, 0)).2
  | .ok _ => (tr.foldl deliverNotification (false, 0)).2

/-- `determineRemainingResources` (lines 226–230): zip the resource list
with the latest completion snapshot and keep the resources whose state is
falsy. -/
def determineRemainingResources (resources : List String)
    (resourceStates : List Bool) : List String :=
  ((resources.zip resourceStates).filter (fun rs => !rs.2)).map (fun rs => rs.1)

/-- The timeout error message (lines 175–176): the template literal
interpolating `TIMEOUT_ERR_MSG`, a colon-space, and the comma-joined
remaining resources. -/
def timeoutErrorMessage (resources : List String)
    (resourceStates : List Bool) : String :=
  "Timed out waiting for" ++ ": " ++
    String.intercalate ", " (determineRemainingResources resources resourceStates)

/-! ## Per-kind pipelines and the uniform emission shape

`createHTTP$`, `createTCP$` and `createSocket$` (lines 318–360, 377–389,
419–431) all map their per-cycle check function over the probe cycles and
feed the booleans into the common
`startWith(false), distinctUntilChanged(), take(2)` tail.  A cycle's I/O
outcome is abstracted by one oracle function per cycle. -/

/-- Emissions of `createHTTP$`: per-cycle outcomes of `httpCallSucceeds`
(one oracle per request), run through `checkFn` and the common tail. -/
def createHTTPEmissions {Opts : Type} (reverse : Bool) (httpOptions : Opts)
    (cycles : List (Opts → Bool)) : List Bool :=
  emitPipeline (cycles.map (fun call => httpCheckFn reverse call httpOptions))

/-- Emissions of `createTCP$`: per-cycle outcomes of the `net.connect`
attempt, through `tcpExists`, `checkFn` and the common tail. -/
def createTCPEmissions (reverse : Bool) (tcpPath : String)
    (cycles : List (String → String → Bool)) : List Bool :=
  emitPipeline (cycles.map (fun net => tcpCheckFn reverse net tcpPath))

/-- Emissions of `createSocket$`: per-cycle outcomes of `socketExists`,
through `checkFn` and the common tail. -/
def createSocketEmissions (reverse : Bool) (socketPath : String)
    (cycles : List (String → Bool)) : List Bool :=
  emitPipeline (cycles.map (fun probe => socketCheckFn reverse probe socketPath))

/-- One per-resource pipeline of any kind, with its probe-cycle outcomes. -/
inductive ResourcePipeline where
  | file (reverse : Bool) (w t0 : Int) (probes : List (Int × Int))
  | http (reverse : Bool) (url : String) (cycles : List (String → Bool))
  | tcp (reverse : Bool) (tcpPath : String)
      (cycles : List (String → String → Bool))
  | socket (reverse : Bool) (socketPath : String) (cycles : List (String → Bool))

/-- The emission list of a pipeline of any kind. -/
def pipelineEmissions : ResourcePipeline → List Bool
  | .file r w t0 ps => createFileEmissions r w t0 ps
  | .http r url cs => createHTTPEmissions r url cs
  | .tcp r p cs => createTCPEmissions r p cs
  | .socket r p cs => createSocketEmissions r p cs

/-- The per-cycle success-predicate booleans a pipeline feeds into the
`startWith/distinctUntilChanged/take(2)` tail. -/
def pipelineCycles : ResourcePipeline → List Bool
  | .file true _ _ ps => ps.map (fun p => p.1 == -1)
  | .file false w t0 ps => (fileScanOutputs w (.run (-1) t0) ps).map accToBool
  | .http r url cs => cs.map (fun call => httpCheckFn r call url)
  | .tcp r p cs => cs.map (fun net => tcpCheckFn r net p)
  | .socket r p cs => cs.map (fun probe => socketCheckFn r probe p)

/-! ## Orchestration outcome (`waitOnImpl`, lines 149–212) -/

/-- Outcome of starting `waitOnImpl`: a synchronous validation failure
(lines 152–154, before any resource observable is built), or a running
engine with the normalized options and one poller per resource
(line 200: `resources.map(createResourceWithDeps$)`). -/
inductive StartOutcome where
  | failedValidation (err : String)
  | running (v : ValidatedOpts)
deriving Repr, DecidableEq

/-- `waitOnImpl` up to the subscription: validate, normalize, start. -/
def waitOnStart (o : WaitOnConfig) : StartOutcome :=
  match joiValidate o with
  | .error e => .failedValidation e
  | .ok v => .running (normalizeOpts v)

/-- Number of per-resource pollers an outcome creates. -/
def pollersCreated : StartOutcome → Nat
  | .failedValidation _ => 0
  | .running v => v.resources.length

/-- Whether a validation result is a success. -/
def validationOk (e : Except String ValidatedOpts) : Prop :=
  ∃ v, e = Except.ok v

/-! ## Predicates used to state the claims -/

/-- A present numeric option value violating
`Joi.number().integer().min(m)`: a non-integer, or a value `< m`. -/
def badNumericMin (m : Int) (q : Option Rat) : Prop :=
  ∃ x, q = some x ∧ (x.den ≠ 1 ∨ x < (m : Rat))

/-- The invalid-option conditions enumerated by the specification:
missing/empty `resources`, a non-integer numeric field, a negative value
where `≥ 0` is required, or `simultaneous < 1`. -/
def SpecInvalidConfig (o : WaitOnConfig) : Prop :=
  o.resources = none ∨ o.resources = some [] ∨
  badNumericMin 0 o.delay ∨ badNumericMin 0 o.httpTimeout ∨
  badNumericMin 0 o.interval ∨ badNumericMin 1 o.simultaneous ∨
  badNumericMin 0 o.timeout ∨ badNumericMin 0 o.window ∨
  badNumericMin 0 o.tcpTimeout

/-- `pat` occurs as a contiguous substring of `l` (executable). -/
def occursInB (pat : List Char) : List Char → Bool
  | [] => pat.isEmpty
  | c :: cs => pat.isPrefixOf (c :: cs) || occursInB pat cs

/-- A minimal valid configuration used to instantiate claims: one
resource, everything else defaulted. -/
def cfgDefault : WaitOnConfig :=
  { resources := some ["a"], delay := none, httpTimeout := none
    interval := none, log := none, reverse := none, simultaneous := none
    timeout := none, verbose := none, window := none, tcpTimeout := none }

/-- A configuration with the `resources` key omitted. -/
def cfgNoResources : WaitOnConfig :=
  { cfgDefault with resources := none }

/-- The validated form of `cfgDefault` (all schema defaults). -/
def validatedDefault : ValidatedOpts :=
  { resources := ["a"], delay := 0, httpTimeout := none, interval := 250
    log := false, reverse := false, simultaneous := none, timeout := none
    verbose := false, window := 750, tcpTimeout := 300 }

/-! ## Helper lemmas -/

theorem coalesceFrom_false_spec (cycles : List Bool) :
    (coalesceFrom false cycles = [] ∧ true ∉ cycles) ∨
    (∃ rest, coalesceFrom false cycles = true :: rest ∧ true ∈ cycles) := by
  induction cycles with
  | nil => exact Or.inl ⟨rfl, by simp⟩
  | cons x xs ih =>
    cases x with
    | true => exact Or.inr ⟨coalesceFrom true xs, by simp [coalesceFrom], by simp⟩
    | false =>
      rcases ih with ⟨h1, h2⟩ | ⟨rest, h1, h2⟩
      · exact Or.inl ⟨by simpa [coalesceFrom] using h1, by simp [h2]⟩
      · exact Or.inr ⟨rest, by simpa [coalesceFrom] using h1, by simp [h2]⟩

theorem emitPipeline_shape (cycles : List Bool) :
    (emitPipeline cycles = [false] ∧ true ∉ cycles) ∨
    (emitPipeline cycles = [false, true] ∧ true ∈ cycles) := by
  rcases coalesceFrom_false_spec cycles with ⟨h1, h2⟩ | ⟨rest, h1, h2⟩
  · exact Or.inl ⟨by simp [emitPipeline, coalesce, h1], h2⟩
  · exact Or.inr ⟨by simp [emitPipeline, coalesce, h1], h2⟩

theorem pipelineEmissions_eq_emitPipeline (rp : ResourcePipeline) :
    pipelineEmissions rp = emitPipeline (pipelineCycles rp) := by
  cases rp with
  | file r w t0 ps => cases r <;> rfl
  | http r url cs => rfl
  | tcp r p cs => rfl
  | socket r p cs => rfl

/-! ## Claims -/

/-- Claim C4 (confirmed): for every resource of every kind and every
probe-outcome trace, the per-resource stream emits exactly the initial
`false`, followed by a single `true` precisely when the per-cycle success
predicate holds at some cycle, and then completes (the emission list is
`[false]` or `[false, true]`, so duplicates are coalesced and a declared
`done` is never undone later in the run). -/
theorem per_resource_emission_contract (rp : ResourcePipeline) :
    (pipelineEmissions rp = [false] ∧ true ∉ pipelineCycles rp) ∨
    (pipelineEmissions rp = [false, true] ∧ true ∈ pipelineCycles rp) := by
  rw [pipelineEmissions_eq_emitPipeline]
  exact emitPipeline_shape _

/-- Claim C5 (confirmed): reverse mode inverts the per-cycle predicate for
HTTP, TCP and socket resources (`checkFn = negateAsync(probe)`), and for
file resources the reverse predicate is `size === -1` applied directly,
with the stability window (and the scan seed time) never consulted. -/
theorem reverse_mode_negates_predicate {Opts : Type}
    (httpCall : Opts → Bool) (httpOptions : Opts)
    (net : String → String → Bool) (sockEx : String → Bool)
    (tcpPath sockPath : String) (w w' t0 t0' : Int)
    (probes : List (Int × Int)) :
    httpCheckFn true httpCall httpOptions = !(httpCheckFn false httpCall httpOptions)
    ∧ tcpCheckFn true net tcpPath = !(tcpCheckFn false net tcpPath)
    ∧ socketCheckFn true sockEx sockPath = !(socketCheckFn false sockEx sockPath)
    ∧ createFileEmissions true w t0 probes
        = emitPipeline (probes.map (fun p => p.1 == -1))
    ∧ createFileEmissions true w t0 probes = createFileEmissions true w' t0' probes :=
  ⟨rfl, rfl, rfl, rfl, rfl⟩

/-- Claim C1 (counterexample): the `scan` accumulator is NOT reset to
`(-1, now)` on a probe returning `-1` (the code returns `acc` unchanged,
line 275), and consequently with `window = 750` the probe trace
"size 5 at t=0, absent at t=400, size 5 at t=800" is declared stable at
t=800 even though the file was not continuously observed at the same size
during the preceding 750 ms window. -/
theorem file_absent_probe_counterexample :
    ¬ (fileScanStep 750 (FileAcc.run 5 0) (-1) 100 = FileAcc.run (-1) 100)
    ∧ fileScanFold 750 0 [(5, 0), (-1, 400), (5, 800)] = FileAcc.done := by
  constructor
  · decide
  · decide

/-- Claim C1 (amended): for every file resource in non-reverse mode, the
poller maintains `(lastSize, firstSeenAt)`; on a probe returning `-1`
(file absent) the state is left unchanged (not reset); consequently a file
is declared done only when the probed size equals the recorded size, that
size is not `-1`, and at least `window` milliseconds have elapsed since
the recorded timestamp — intermediate absent probes do not restart the
window, so continuous presence is not guaranteed. -/
theorem file_stability_done_conditions (w : Int) :
    (∀ (acc : FileAcc) (now : Int), fileScanStep w acc (-1) now = acc)
    ∧ (∀ (size t x now : Int),
        fileScanStep w (FileAcc.run size t) x now = FileAcc.done →
        size ≠ -1 ∧ x = size ∧ now ≥ t + w) := by
  constructor
  · intro acc now
    simp [fileScanStep]
  · intro size t x now h
    by_cases hx : x > -1
    · simp only [fileScanStep, if_pos hx] at h
      by_cases hc : size ≠ -1 ∧ x = size
      · rw [if_pos hc] at h
        by_cases hn : now ≥ t + w
        · exact ⟨hc.1, hc.2, hn⟩
        · rw [if_neg hn] at h
          exact absurd h (by simp)
      · rw [if_neg hc] at h
        exact absurd h (by simp)
    · simp only [fileScanStep, if_neg hx] at h
      exact absurd h (by simp)

/-- Witness for the amended C1 theorem at window 750: the absent probe at
time 100 leaves the state `(5, 0)` unchanged, and the done conditions hold
at a concrete stabilizing step. -/
theorem file_stability_done_conditions_witness :
    fileScanStep 750 (FileAcc.run 5 0) (-1) 100 = FileAcc.run 5 0
    ∧ ((5 : Int) ≠ -1 ∧ (5 : Int) = 5 ∧ (750 : Int) ≥ 0 + 750) :=
  ⟨(file_stability_done_conditions 750).1 (FileAcc.run 5 0) 100,
   (file_stability_done_conditions 750).2 5 0 5 750 (by decide)⟩

theorem foldl_deliver_state (tr : List RxNotification) (st : Bool × Nat)
    (h : st = (false, 0) ∨ st = (true, 1)) :
    tr.foldl deliverNotification st = (false, 0)
      ∨ tr.foldl deliverNotification st = (true, 1) := by
  induction tr generalizing st with
  | nil => simpa using h
  | cons e es ih =>
    apply ih
    rcases h with h | h <;> subst h <;> cases e <;>
      simp [deliverNotification, isTerminalNotification, onceInvoke]

theorem foldl_deliver_absorb (tr : List RxNotification) :
    tr.foldl deliverNotification (true, 1) = (true, 1) := by
  induction tr with
  | nil => rfl
  | cons e es ih =>
    have : deliverNotification (true, 1) e = (true, 1) := by
      cases e <;> simp [deliverNotification, isTerminalNotification, onceInvoke]
    simpa [this] using ih

theorem foldl_deliver_terminal (tr : List RxNotification) (st : Bool × Nat)
    (h : st = (false, 0) ∨ st = (true, 1))
    (ht : ∃ e ∈ tr, isTerminalNotification e = true) :
    tr.foldl deliverNotification st = (true, 1) := by
  induction tr generalizing st with
  | nil => simp at ht
  | cons e es ih =>
    by_cases he : isTerminalNotification e = true
    · have hstep : deliverNotification st e = (true, 1) := by
        rcases h with h | h <;> subst h <;>
          simp [deliverNotification, he, onceInvoke]
      simpa [hstep] using foldl_deliver_absorb es
    · rcases ht with ⟨x, hx, hxt⟩
      rcases List.mem_cons.mp hx with rfl | hx'
      · exact absurd hxt he
      · have hstep : deliverNotification st e = st := by
          simp [deliverNotification, he]
        simpa [hstep] using ih st h ⟨x, hx', hxt⟩

/-- Claim C2 (confirmed): for every options object (valid or not) and
every sequence of notifications the subscription delivers, the underlying
user callback runs at most once; it runs exactly once whenever a terminal
notification (aggregator completion or timeout/stream error) is delivered,
and exactly once on a synchronous validation error. -/
theorem terminal_callback_once (o : WaitOnConfig) (tr : List RxNotification) :
    callbackRuns o tr ≤ 1
    ∧ ((∃ e ∈ tr, isTerminalNotification e = true) → callbackRuns o tr = 1)
    ∧ (∀ err, joiValidate o = Except.error err → callbackRuns o tr = 1) := by
  refine ⟨?_, ?_, ?_⟩
  · unfold callbackRuns
    cases h : joiValidate o with
    | error e => simp [onceInvoke]
    | ok v =>
      rcases foldl_deliver_state tr (false, 0) (Or.inl rfl) with h2 | h2 <;>
        simp [h2]
  · intro ht
    unfold callbackRuns
    cases h : joiValidate o with
    | error e => simp [onceInvoke]
    | ok v => rw [foldl_deliver_terminal tr (false, 0) (Or.inl rfl) ht]
  · intro err herr
    unfold callbackRuns
    rw [herr]
    simp [onceInvoke]

/-- Witness for C2: a valid default configuration whose run completes
(one `next` snapshot then `complete`) calls the user callback exactly
once. -/
theorem terminal_callback_once_witness :
    callbackRuns cfgDefault [RxNotification.next [false], RxNotification.completed] = 1 :=
  (terminal_callback_once cfgDefault
      [RxNotification.next [false], RxNotification.completed]).2.1
    ⟨RxNotification.completed, by simp, rfl⟩

theorem determineRemaining_cons (r : String) (rs : List String) (s : Bool)
    (ss : List Bool) :
    determineRemainingResources (r :: rs) (s :: ss)
      = if s then determineRemainingResources rs ss
        else r :: determineRemainingResources rs ss := by
  cases s <;> simp [determineRemainingResources]

theorem mem_determineRemaining (rs : List String) (ss : List Bool) (i : Nat)
    (hi : i < rs.length) (hi' : i < ss.length)
    (h : ss.get ⟨i, hi'⟩ = false) :
    rs.get ⟨i, hi⟩ ∈ determineRemainingResources rs ss := by
  induction rs generalizing ss i with
  | nil => exact absurd hi (by simp)
  | cons r rest ih =>
    cases ss with
    | nil => exact absurd hi' (by simp)
    | cons s ss =>
      cases i with
      | zero =>
        have hs : s = false := by simpa using h
        subst hs
        rw [determineRemaining_cons]
        simp
      | succ n =>
        rw [determineRemaining_cons]
        have hmem := ih ss n (by simpa using hi) (by simpa using hi')
          (by simpa using h)
        have hn : n < rest.length := by simpa using hi
        have hmem' : rest[n] ∈ determineRemainingResources rest ss := by
          simpa using hmem
        cases s <;> simp [hmem']

/-- Claim C3 (confirmed): when the global timer fires, the error message
is exactly `"Timed out waiting for: "` followed by the comma-joined
still-pending resources, and that list contains every resource whose
latest completion state is still `false` (in particular every resource
that never became available). -/
theorem timeout_error_message_spec (resources : List String)
    (states : List Bool) (_hlen : states.length = resources.length) :
    timeoutErrorMessage resources states
      = "Timed out waiting for: "
          ++ String.intercalate ", " (determineRemainingResources resources states)
    ∧ ∀ (i : Nat) (hi : i < resources.length) (hi' : i < states.length),
        states.get ⟨i, hi'⟩ = false →
        resources.get ⟨i, hi⟩ ∈ determineRemainingResources resources states := by
  constructor
  · rfl
  · intro i hi hi' h
    exact mem_determineRemaining resources states i hi hi' h

/-- Witness for C3: with resources `["a", "b"]` and latest states
`[true, false]`, the message is the expected string and the never-ready
resource `"b"` is listed. -/
theorem timeout_error_message_witness :
    timeoutErrorMessage ["a", "b"] [true, false]
      = "Timed out waiting for: "
          ++ String.intercalate ", "
              (determineRemainingResources ["a", "b"] [true, false])
    ∧ "b" ∈ determineRemainingResources ["a", "b"] [true, false] := by
  have h := timeout_error_message_spec ["a", "b"] [true, false] (by decide)
  refine ⟨h.1, ?_⟩
  have h2 := h.2 1 (by decide) (by decide) (by decide)
  simpa using h2

theorem badNumericMin_fieldOk {m : Int} {q : Option Rat}
    (hb : badNumericMin m q) : fieldOk m q = false := by
  rcases hb with ⟨x, rfl, hx⟩
  simp only [fieldOk, Bool.and_eq_false_iff, decide_eq_false_iff_not]
  rcases hx with hx | hx
  · exact Or.inl hx
  · exact Or.inr (not_le.mpr hx)

theorem joiValidate_ok_fields {o : WaitOnConfig} {v : ValidatedOpts}
    (h : joiValidate o = Except.ok v) :
    (∃ r rs, o.resources = some (r :: rs))
    ∧ fieldOk 0 o.delay = true ∧ fieldOk 0 o.httpTimeout = true
    ∧ fieldOk 0 o.interval = true ∧ fieldOk 1 o.simultaneous = true
    ∧ fieldOk 0 o.timeout = true ∧ fieldOk 0 o.window = true
    ∧ fieldOk 0 o.tcpTimeout = true := by
  unfold joiValidate at h
  cases hr : o.resources with
  | none => rw [hr] at h; cases h
  | some rs =>
    cases rs with
    | nil => rw [hr] at h; cases h
    | cons r rest =>
      rw [hr] at h
      split_ifs at h with h1 h2 h3 h4 h5 h6 h7
      exact ⟨⟨r, rest, rfl⟩, by simpa using h1, by simpa using h2,
        by simpa using h3, by simpa using h4, by simpa using h5,
        by simpa using h6, by simpa using h7⟩

/-- Claim C8 (confirmed): every options object with missing or empty
`resources`, a non-integer numeric field, a negative value where `≥ 0` is
required, or `simultaneous < 1` fails validation; `waitOnImpl` then
invokes the callback synchronously (exactly once, for any notification
trace) with the validation error, and creates no resource pollers (hence
performs no probes). -/
theorem invalid_config_rejected (o : WaitOnConfig)
    (hbad : SpecInvalidConfig o) :
    ∃ e, joiValidate o = Except.error e
      ∧ waitOnStart o = StartOutcome.failedValidation e
      ∧ pollersCreated (waitOnStart o) = 0
      ∧ ∀ tr, callbackRuns o tr = 1 := by
  cases h : joiValidate o with
  | error e =>
    refine ⟨e, rfl, ?_, ?_, ?_⟩
    · simp [waitOnStart, h]
    · simp [waitOnStart, h, pollersCreated]
    · intro tr
      simp [callbackRuns, h, onceInvoke]
  | ok v =>
    exfalso
    obtain ⟨⟨r, rest, hr⟩, h1, h2, h3, h4, h5, h6, h7⟩ := joiValidate_ok_fields h
    rcases hbad with hb | hb | hb | hb | hb | hb | hb | hb | hb
    · rw [hb] at hr; cases hr
    · rw [hb] at hr; simp at hr
    · rw [badNumericMin_fieldOk hb] at h1; cases h1
    · rw [badNumericMin_fieldOk hb] at h2; cases h2
    · rw [badNumericMin_fieldOk hb] at h3; cases h3
    · rw [badNumericMin_fieldOk hb] at h4; cases h4
    · rw [badNumericMin_fieldOk hb] at h5; cases h5
    · rw [badNumericMin_fieldOk hb] at h6; cases h6
    · rw [badNumericMin_fieldOk hb] at h7; cases h7

/-- Witness for C8: omitting `resources` yields zero pollers and a single
synchronous callback invocation. -/
theorem invalid_config_rejected_witness :
    pollersCreated (waitOnStart cfgNoResources) = 0
    ∧ callbackRuns cfgNoResources [] = 1 := by
  obtain ⟨e, _h1, _h2, h3, h4⟩ :=
    invalid_config_rejected cfgNoResources (Or.inl rfl)
  exact ⟨h3, h4 []⟩

/-- Claim C9 (confirmed): for every options object that passes validation,
the normalized options satisfy `window = max(window, interval)` (hence
`window ≥ interval`) and `log = log || verbose`, with every other
validated field unchanged. -/
theorem normalized_options_spec (o : WaitOnConfig) (v : ValidatedOpts)
    (_h : joiValidate o = Except.ok v) :
    normalizeOpts v
      = { v with window := max v.window v.interval, log := v.log || v.verbose }
    ∧ (normalizeOpts v).interval ≤ (normalizeOpts v).window := by
  have hw : (if v.window < v.interval then v.interval else v.window)
      = max v.window v.interval := by
    split_ifs with h' <;> omega
  have hl : (if v.verbose then true else v.log) = (v.log || v.verbose) := by
    cases v.verbose <;> simp
  constructor
  · simp [normalizeOpts, hw, hl]
  · show v.interval ≤ (if v.window < v.interval then v.interval else v.window)
    split_ifs with h' <;> omega

/-- Witness for C9: the all-defaults configuration validates, and its
normalization keeps `window = 750 = max 750 250` with `log = false`. -/
theorem normalized_options_spec_witness :
    normalizeOpts validatedDefault
      = { validatedDefault with
          window := max validatedDefault.window validatedDefault.interval,
          log := validatedDefault.log || validatedDefault.verbose }
    ∧ (normalizeOpts validatedDefault).interval
        ≤ (normalizeOpts validatedDefault).window :=
  normalized_options_spec cfgDefault validatedDefault rfl

/-- Claim C7 (confirmed): a `tcp:` payload not matching `HOST_PORT_RE`
makes the TCP probe report unavailable on every cycle regardless of the
network, hence succeed on every cycle under reverse mode; and validation
never inspects resource string contents, so no configuration error is
raised for such a resource. -/
theorem malformed_tcp_payload_spec (payload : String)
    (net : String → String → Bool) (h : matchHostPort payload = none) :
    tcpExists net payload = false
    ∧ tcpCheckFn true net payload = true
    ∧ (∀ (o : WaitOnConfig) (rs rs' : List String), rs ≠ [] → rs' ≠ [] →
        (validationOk (joiValidate { o with resources := some rs })
          ↔ validationOk (joiValidate { o with resources := some rs' }))) := by
  refine ⟨?_, ?_, ?_⟩
  · simp [tcpExists, h]
  · simp [tcpCheckFn, negateAsync, tcpExists, h]
  · intro o rs rs' h1 h2
    cases rs with
    | nil => exact absurd rfl h1
    | cons a t =>
      cases rs' with
      | nil => exact absurd rfl h2
      | cons a' t' =>
        simp only [joiValidate, validationOk]
        split_ifs <;> simp

/-- Witness for C7: the payload `"foo:bar"` (non-numeric port) does not
match `HOST_PORT_RE`; the probe reports `false` and reverse mode reports
`true` even when the network oracle would accept everything. -/
theorem malformed_tcp_payload_witness :
    tcpExists (fun _ _ => true) "foo:bar" = false
    ∧ tcpCheckFn true (fun _ _ => true) "foo:bar" = true := by
  obtain ⟨h1, h2, _h3⟩ :=
    malformed_tcp_payload_spec "foo:bar" (fun _ _ => true) (by decide)
  exact ⟨h1, h2⟩

theorem splitOnChar_not_mem {c : Char} {l : List Char} (h : c ∉ l) :
    splitOnChar c l = [l] := by
  induction l with
  | nil => rfl
  | cons x xs ih =>
    have hx : ¬ x = c := fun he => h (he ▸ List.mem_cons_self x xs)
    have hxs : c ∉ xs := fun hm => h (List.mem_cons_of_mem x hm)
    simp [splitOnChar, hx, ih hxs]

theorem splitOnChar_append {c : Char} {a : List Char} (b : List Char)
    (h : c ∉ a) : splitOnChar c (a ++ c :: b) = a :: splitOnChar c b := by
  induction a with
  | nil => simp [splitOnChar]
  | cons x xs ih =>
    have hx : ¬ x = c := fun he => h (he ▸ List.mem_cons_self x xs)
    have hxs : c ∉ xs := fun hm => h (List.mem_cons_of_mem x hm)
    simp [splitOnChar, hx, ih hxs]

theorem isPrefixOf_append_self (a b : List Char) :
    a.isPrefixOf (a ++ b) = true := by
  induction a with
  | nil => simp [List.isPrefixOf]
  | cons x xs ih => simp [List.isPrefixOf, ih]

theorem exists_of_isPrefixOf :
    ∀ (pat l : List Char), pat.isPrefixOf l = true → ∃ t, l = pat ++ t := by
  intro pat
  induction pat with
  | nil => exact fun l _ => ⟨l, rfl⟩
  | cons p ps ih =>
    intro l h
    cases l with
    | nil => simp [List.isPrefixOf] at h
    | cons x xs =>
      simp only [List.isPrefixOf, Bool.and_eq_true, beq_iff_eq] at h
      obtain ⟨t, ht⟩ := ih xs h.2
      exact ⟨t, by simp [h.1, ht]⟩

theorem replaceFirst_no_occurrence {pat : List Char} (rep : List Char)
    {l : List Char} (h : occursInB pat l = false) :
    listReplaceFirst pat rep l = l := by
  induction l with
  | nil => rfl
  | cons c cs ih =>
    simp only [occursInB, Bool.or_eq_false_iff] at h
    simp [listReplaceFirst, h.1, ih h.2]

theorem replaceFirst_length {pat : List Char} (rep : List Char)
    {l : List Char} (hocc : occursInB pat l = true) (hne : pat ≠ []) :
    (listReplaceFirst pat rep l).length + pat.length
      = l.length + rep.length := by
  induction l with
  | nil =>
    simp only [occursInB, List.isEmpty_iff] at hocc
    exact absurd hocc hne
  | cons c cs ih =>
    by_cases hp : pat.isPrefixOf (c :: cs) = true
    · obtain ⟨t, ht⟩ := exists_of_isPrefixOf pat (c :: cs) hp
      have hlen : (c :: cs).length = pat.length + t.length := by
        rw [ht]; simp
      simp only [listReplaceFirst, if_pos hp, List.length_append,
        List.length_drop]
      omega
    · simp only [occursInB, Bool.or_eq_true] at hocc
      rcases hocc with hocc | hocc
      · exact absurd hocc hp
      · simp only [listReplaceFirst, if_neg hp, List.length_cons]
        have := ih hocc
        omega

theorem get_scheme_strip (rest : List Char) :
    listReplaceFirst "-get:".data ":".data ("http-get://unix:".data ++ rest)
      = "http://unix:".data ++ rest := by
  show listReplaceFirst "-get:".data ":".data
      ('h' :: 't' :: 't' :: 'p' :: '-' :: 'g' :: 'e' :: 't' :: ':' :: '/'
        :: '/' :: 'u' :: 'n' :: 'i' :: 'x' :: ':' :: rest)
      = "http://unix:".data ++ rest
  simp [listReplaceFirst, List.isPrefixOf]

theorem matchHttpUnixList_spec {sock path : List Char} (hs : sock ≠ [])
    (hp : path ≠ []) (hcs : ':' ∉ sock) (hcp : ':' ∉ path) :
    matchHttpUnixList ("http://unix:".data ++ (sock ++ ':' :: path))
      = some (sock, path) := by
  unfold matchHttpUnixList
  rw [if_pos (isPrefixOf_append_self _ _)]
  have h12 : ("http://unix:".data).length = 12 := rfl
  rw [← h12, List.drop_left, splitOnChar_append _ hcs, splitOnChar_not_mem hcp]
  simp [hs, hp]

/-- Claim C6 (counterexample): `HTTP_UNIX_RE` only matches the literal
scheme `http:`, so the `https://unix:<sock>:<path>` and
`https-get://unix:<sock>:<path>` forms are NOT classified as
HTTP-over-Unix-socket — they are probed as ordinary URLs with no
`socketPath` (for the `https-get` form, after the `-get:` strip). -/
theorem https_unix_socket_not_detected :
    urlSocketOptions "https://unix:/tmp/sock:/foo"
      = (none, "https://unix:/tmp/sock:/foo")
    ∧ urlSocketOptions "https-get://unix:/tmp/sock:/foo"
      = (none, "https://unix:/tmp/sock:/foo") := by
  constructor
  · rfl
  · rfl

/-- Claim C6 (amended): for every resource of the form
`http://unix:<sockPath>:<urlPath>` or `http-get://unix:<sockPath>:<urlPath>`
(with `<sockPath>` and `<urlPath>` nonempty and colon-free, and — for the
plain form — no `-get:` substring anywhere in the resource), the parser
classifies it as HTTP-over-Unix-socket, directing the transport at
`<sockPath>` with `<urlPath>` as the request target; the `http-get` form
additionally selects the GET method.  The `https`/`https-get` unix forms
are not detected (see the counterexample). -/
theorem http_unix_socket_parsing (sock path : String)
    (hs : sock.data ≠ []) (hp : path.data ≠ [])
    (hcs : ':' ∉ sock.data) (hcp : ':' ∉ path.data)
    (hng : occursInB "-get:".data
      ("http://unix:" ++ sock ++ ":" ++ path).data = false) :
    urlSocketOptions ("http://unix:" ++ sock ++ ":" ++ path)
      = (some sock, path)
    ∧ urlSocketOptions ("http-get://unix:" ++ sock ++ ":" ++ path)
      = (some sock, path)
    ∧ httpMethod ("http-get://unix:" ++ sock ++ ":" ++ path) = "get" := by
  have hdata : ("http://unix:" ++ sock ++ ":" ++ path).data
      = "http://unix:".data ++ (sock.data ++ ':' :: path.data) := by
    simp [String.data_append]
  have hdataGet : ("http-get://unix:" ++ sock ++ ":" ++ path).data
      = "http-get://unix:".data ++ (sock.data ++ ':' :: path.data) := by
    simp [String.data_append]
  refine ⟨?_, ?_, ?_⟩
  · have hrep : httpRequestUrl ("http://unix:" ++ sock ++ ":" ++ path)
        = "http://unix:" ++ sock ++ ":" ++ path := by
      show String.mk (listReplaceFirst "-get:".data ":".data _) = _
      rw [replaceFirst_no_occurrence _ hng]
    have hmu : matchHttpUnix ("http://unix:" ++ sock ++ ":" ++ path)
        = some (sock, path) := by
      unfold matchHttpUnix
      rw [hdata, matchHttpUnixList_spec hs hp hcs hcp]
      rfl
    simp [urlSocketOptions, hrep, hmu]
  · have hrep : (httpRequestUrl ("http-get://unix:" ++ sock ++ ":" ++ path)).data
        = "http://unix:".data ++ (sock.data ++ ':' :: path.data) := by
      show listReplaceFirst "-get:".data ":".data _ = _
      rw [hdataGet, get_scheme_strip]
    have hmu : matchHttpUnix (httpRequestUrl ("http-get://unix:" ++ sock ++ ":" ++ path))
        = some (sock, path) := by
      unfold matchHttpUnix
      rw [hrep, matchHttpUnixList_spec hs hp hcs hcp]
      rfl
    simp [urlSocketOptions, hmu]
  · unfold httpMethod
    rw [hdataGet]
    have hpre : "http-get:".data.isPrefixOf
        ("http-get://unix:".data ++ (sock.data ++ ':' :: path.data)) = true := by
      have : "http-get://unix:".data ++ (sock.data ++ ':' :: path.data)
          = "http-get:".data ++ ("//unix:".data ++ (sock.data ++ ':' :: path.data)) := by
        simp
      rw [this]
      exact isPrefixOf_append_self _ _
    rw [hpre]
    simp

/-- Witness for the amended C6 theorem: both working unix-socket forms
with `sockPath = "/tmp/sock"` and `urlPath = "/foo"`. -/
theorem http_unix_socket_parsing_witness :
    urlSocketOptions "http://unix:/tmp/sock:/foo" = (some "/tmp/sock", "/foo")
    ∧ urlSocketOptions "http-get://unix:/tmp/sock:/foo"
        = (some "/tmp/sock", "/foo") := by
  have h := http_unix_socket_parsing "/tmp/sock" "/foo" (by decide) (by decide)
    (by decide) (by decide) (by decide)
  exact ⟨h.1, h.2.1⟩

/-- Claim C10 (confirmed): for every resource whose scheme is plain
`http:` or `https:` but whose remainder contains the substring `-get:`,
the URL actually requested is the resource with its first `-get:`
occurrence replaced by `:` (line 330 applies the replacement
unconditionally), the method is still HEAD, and the requested URL differs
from the resource as written. -/
theorem plain_http_get_url_rewrite (resource : String)
    (hscheme : (∃ rest, resource.data = "http:".data ++ rest)
      ∨ (∃ rest, resource.data = "https:".data ++ rest))
    (hocc : occursInB "-get:".data resource.data = true) :
    httpRequestUrl resource = jsReplace resource "-get:" ":"
    ∧ httpMethod resource = "head"
    ∧ httpRequestUrl resource ≠ resource := by
  refine ⟨rfl, ?_, ?_⟩
  · unfold httpMethod
    rcases hscheme with ⟨rest, hr⟩ | ⟨rest, hr⟩ <;>
      · rw [hr]
        show (if _ then "get" else "head") = "head"
        rw [if_neg]
        simp [List.isPrefixOf]
  · intro heq
    have hd : (httpRequestUrl resource).data = resource.data :=
      congrArg String.data heq
    have hlen := replaceFirst_length (l := resource.data) ":".data hocc
      (by decide)
    rw [show (httpRequestUrl resource).data
        = listReplaceFirst "-get:".data ":".data resource.data from rfl] at hd
    rw [hd] at hlen
    have h5 : ("-get:".data).length = 5 := rfl
    have h1 : (":".data).length = 1 := rfl
    omega

/-- Witness for C10: the resource `"http://h/a-get:b"` has a plain `http:`
scheme, contains `-get:`, is requested with method HEAD, and the requested
URL differs from the resource. -/
theorem plain_http_get_url_rewrite_witness :
    httpMethod "http://h/a-get:b" = "head"
    ∧ httpRequestUrl "http://h/a-get:b" ≠ "http://h/a-get:b" := by
  have h := plain_http_get_url_rewrite "http://h/a-get:b"
    (Or.inl ⟨"//h/a-get:b".data, rfl⟩) (by decide)
  exact ⟨h.2.1, h.2.2⟩

end WaitOn
